import Mathlib

/-!
# Vending machine: transaction engine

A shallow embedding of `main.go`: the global slices `products` and `users`
become an explicit `State`, each HTTP handler becomes a function from the
state and the request inputs to the new state and the reply that was written.

Go's `int` is modelled as `Int` restricted to the 64-bit two's complement range;
every arithmetic operation of the source goes through `wrapInt`, which is the
wrap-around Go specifies for signed overflow.
-/

namespace VendingMachine

/-! ## Machine integers -/

/-- Smallest value of Go's 64-bit `int`. -/
def intMin : Int := -9223372036854775808

/-- Largest value of Go's 64-bit `int`. -/
def intMax : Int := 9223372036854775807

/-- Two's complement wrap-around of a mathematical integer into the `int` range. -/
def wrapInt (x : Int) : Int :=
  (x + 9223372036854775808) % 18446744073709551616 - 9223372036854775808

/-- A value that a Go `int` variable can hold. -/
def InRange (x : Int) : Prop := intMin ≤ x ∧ x ≤ intMax

instance (x : Int) : Decidable (InRange x) := by
  unfold InRange; exact inferInstance

/-- Go `a + b` on `int`. -/
def iadd (a b : Int) : Int := wrapInt (a + b)

/-- Go `a - b` on `int`. -/
def isub (a b : Int) : Int := wrapInt (a - b)

/-- Go `a * b` on `int`. -/
def imul (a b : Int) : Int := wrapInt (a * b)

/-! ## Data model -/

/-- Product represents a product in the vending machine. -/
structure Product where
  ID : String
  AmountAvailable : Int
  Cost : Int
  ProductName : String
  SellerID : String
deriving DecidableEq

/-- User represents a user of the vending machine. -/
structure User where
  ID : String
  Username : String
  Password : String
  Deposit : Int
  Role : String
deriving DecidableEq

/-- The two package-level slices `products` and `users`. -/
structure State where
  products : List Product
  users : List User
deriving DecidableEq

/-- The anonymous response struct that `buy` encodes on success. -/
structure Receipt where
  TotalSpent : Int
  ProductsBought : List Product
  Change : List Int
deriving DecidableEq

/-- What a handler wrote to the `http.ResponseWriter`: either `http.Error` with a
message and a status code, or the JSON encoding of a body (status 200). -/
inductive Reply (α : Type) where
  | httpError (msg : String) (status : Nat) : Reply α
  | ok (body : α) : Reply α
deriving DecidableEq

/-- Every integer stored in the state fits a Go `int`. -/
def State.WF (s : State) : Prop :=
  (∀ u ∈ s.users, InRange u.Deposit) ∧
  (∀ p ∈ s.products, InRange p.AmountAvailable ∧ InRange p.Cost)

instance (s : State) : Decidable s.WF := by
  unfold State.WF; exact inferInstance

/-! ## Lookups

`for i := range xs { if xs[i].ID == id { ptr = &xs[i]; break } }`: the pointer
is the index of the first element with that ID, together with the element read
through it. -/

/-- First user whose `ID` equals `userID`, with its index (the `*User` of the source). -/
def findUser : List User → String → Option (Nat × User)
  | [], _ => none
  | u :: us, userID =>
    if u.ID = userID then some (0, u)
    else (findUser us userID).map (fun r => (r.1 + 1, r.2))

/-- First product whose `ID` equals `productID`, with its index (the `*Product` of the source). -/
def findProduct : List Product → String → Option (Nat × Product)
  | [], _ => none
  | p :: ps, productID =>
    if p.ID = productID then some (0, p)
    else (findProduct ps productID).map (fun r => (r.1 + 1, r.2))

/-! ## calculateChange -/

deriving instance DecidableEq for Except

/-- The slice `coins` of `calculateChange`. -/
def coins : List Int := [100, 50, 20, 10, 5]

/-- The inner loop `for amount >= coin { change = append(change, coin); amount -= coin }`.
The first argument after `coin` bounds the number of iterations; `none` means the
bound was reached with the loop guard still true. -/
def coinLoop (coin : Int) : Nat → Int → List Int → Option (Int × List Int)
  | 0, _, _ => none
  | fuel + 1, amount, change =>
    if amount ≥ coin then coinLoop coin fuel (isub amount coin) (change ++ [coin])
    else some (amount, change)

/-- The outer loop `for _, coin := range coins`. -/
def rangeCoins : List Int → Nat → Int → List Int → Option (Int × List Int)
  | [], _, amount, change => some (amount, change)
  | coin :: rest, fuel, amount, change =>
    match coinLoop coin fuel amount change with
    | none => none
    | some (amount1, change1) => rangeCoins rest fuel amount1 change1

/-- The function `calculateChange`: `some (.ok change)` for `return change, nil`,
`some (.error msg)` for `return nil, errors.New(msg)`; `none` only if an inner
loop did not finish within `amount + 1` iterations (`calculateChange_terminates`
shows this never happens). -/
def calculateChange (amount : Int) : Option (Except String (List Int)) :=
  match rangeCoins coins (amount.toNat + 1) amount [] with
  | none => none
  | some (amount1, change) =>
    if amount1 ≠ 0 then some (.error "unable to make change")
    else some (.ok change)

/-! ## Handlers -/

/-- The handler `deposit`. `userID` is the `X-User-ID` header, `amount` the result of
`strconv.Atoi(r.FormValue("amount"))` (`none` when Atoi returns an error). -/
def deposit (s : State) (userID : String) (amount : Option Int) : State × Reply User :=
  if userID = "" then (s, .httpError "Missing user ID" 401)
  else
    match findUser s.users userID with
    | none => (s, .httpError "Unauthorized" 401)
    | some (i, user) =>
      if user.Role ≠ "buyer" then (s, .httpError "Unauthorized" 401)
      else
        match amount with
        | none => (s, .httpError "Invalid deposit amount" 400)
        | some amount =>
          if amount ≠ 5 ∧ amount ≠ 10 ∧ amount ≠ 20 ∧ amount ≠ 50 ∧ amount ≠ 100 then
            (s, .httpError "Invalid deposit amount" 400)
          else
            let user1 : User := { user with Deposit := iadd user.Deposit amount }
            ({ s with users := s.users.set i user1 }, .ok user1)

/-- The handler `buy`. `userID` is the `X-User-ID` header, `productID` the form value
`productId`, `amount` the result of `strconv.Atoi(r.FormValue("amount"))`
(`none` when Atoi returns an error). The outer `Option` is `none` only if
`calculateChange` is. -/
def buy (s : State) (userID productID : String) (amount : Option Int) :
    Option (State × Reply Receipt) :=
  if userID = "" then some (s, .httpError "Missing user ID" 401)
  else
    match findUser s.users userID with
    | none => some (s, .httpError "Unauthorized" 401)
    | some (i, user) =>
      if user.Role ≠ "buyer" then some (s, .httpError "Unauthorized" 401)
      else
        match amount with
        | none => some (s, .httpError "Invalid amount" 400)
        | some amount =>
          match findProduct s.products productID with
          | none => some (s, .httpError "Product not found" 404)
          | some (j, product) =>
            if amount > product.AmountAvailable then
              some (s, .httpError "Insufficient product quantity" 400)
            else
              let totalCost := imul product.Cost amount
              if totalCost > user.Deposit then
                some (s, .httpError "Insufficient funds" 402)
              else
                let product1 : Product :=
                  { product with AmountAvailable := isub product.AmountAvailable amount }
                let user1 : User := { user with Deposit := isub user.Deposit totalCost }
                let s1 : State :=
                  { products := s.products.set j product1, users := s.users.set i user1 }
                match calculateChange user1.Deposit with
                | none => none
                | some (.error msg) => some (s1, .httpError msg 500)
                | some (.ok change) =>
                  let user2 : User := { user1 with Deposit := 0 }
                  some ({ s1 with users := s1.users.set i user2 },
                    .ok { TotalSpent := totalCost, ProductsBought := [product1], Change := change })

/-- The handler `reset`: the first user with the ID gets `Deposit = 0` and is encoded. -/
def reset (s : State) (userID : String) : State × Reply User :=
  if userID = "" then (s, .httpError "Missing user ID" 401)
  else
    match findUser s.users userID with
    | some (i, user) =>
      let user1 : User := { user with Deposit := 0 }
      ({ s with users := s.users.set i user1 }, .ok user1)
    | none => (s, .httpError "User not found" 404)

/-- The handler `updateProduct`. `id` is the path variable, `sellerID` the `X-User-ID`
header, `updatedProduct` what decoding the request body left in `updatedProduct`.
`append(products[:index], products[index+1:]...)` removes the element at `index`. -/
def updateProduct (s : State) (id sellerID : String) (updatedProduct : Product) :
    State × Reply Product :=
  match findProduct s.products id with
  | none => (s, .httpError "Product not found" 404)
  | some (index, product) =>
    if product.SellerID ≠ sellerID then (s, .httpError "Unauthorized" 401)
    else
      let updated1 : Product := { updatedProduct with SellerID := sellerID }
      ({ s with products := s.products.eraseIdx index ++ [updated1] }, .ok updated1)

/-- The handler `deleteProduct`; on success it encodes the remaining products. -/
def deleteProduct (s : State) (id sellerID : String) : State × Reply (List Product) :=
  match findProduct s.products id with
  | none => (s, .httpError "Product not found" 404)
  | some (index, product) =>
    if product.SellerID ≠ sellerID then (s, .httpError "Unauthorized" 401)
    else
      ({ s with products := s.products.eraseIdx index }, .ok (s.products.eraseIdx index))

/-! ## Derived definitions used in the statements -/

/-- The list the five inner loops build from a non-negative amount, in closed form. -/
def greedyChange (a : Int) : List Int :=
  List.replicate (a / 100).toNat 100 ++
  (List.replicate (a % 100 / 50).toNat 50 ++
  (List.replicate (a % 100 % 50 / 20).toNat 20 ++
  (List.replicate (a % 100 % 50 % 20 / 10).toNat 10 ++
  List.replicate (a % 100 % 50 % 20 % 10 / 5).toNat 5)))

/-- Number of coins in the greedy list. -/
def coinCount (a : Int) : Nat :=
  (a / 100).toNat + (a % 100 / 50).toNat + (a % 100 % 50 / 20).toNat +
    (a % 100 % 50 % 20 / 10).toNat + (a % 100 % 50 % 20 % 10 / 5).toNat

/-- The state `buy` has written once stock and deposit are debited (lines 243-244). -/
def debited (s : State) (i j : Nat) (user : User) (product : Product) (amount : Int) : State :=
  { products := s.products.set j
      { product with AmountAvailable := isub product.AmountAvailable amount },
    users := s.users.set i
      { user with Deposit := isub user.Deposit (imul product.Cost amount) } }

/-- The state `buy` leaves after `user.Deposit = 0` (line 252). -/
def settled (s : State) (i j : Nat) (user : User) (product : Product) (amount : Int) : State :=
  { products := s.products.set j
      { product with AmountAvailable := isub product.AmountAvailable amount },
    users := s.users.set i { user with Deposit := 0 } }

/-- Account invariant of the data model: every `Deposit` is a sum of accepted
denominations, that is a non-negative multiple of 5 (`denomination_sum_iff`). -/
def DepositsRepresentable (s : State) : Prop :=
  ∀ u ∈ s.users, 0 ≤ u.Deposit ∧ u.Deposit % 5 = 0

instance (s : State) : Decidable (DepositsRepresentable s) := by
  unfold DepositsRepresentable; exact inferInstance

/-- Stock invariant of the data model: no `AmountAvailable` is negative. -/
def StockNonneg (s : State) : Prop :=
  ∀ p ∈ s.products, 0 ≤ p.AmountAvailable

instance (s : State) : Decidable (StockNonneg s) := by
  unfold StockNonneg; exact inferInstance

/-! ## A concrete shop -/

/-- A seller account, as `createTestUser` builds it. -/
def seller : User :=
  { ID := "seller-1", Username := "selleruser", Password := "sellerpass", Deposit := 0,
    Role := "seller" }

/-- A buyer account with an empty balance. -/
def buyer : User :=
  { ID := "buyer-1", Username := "testbuyer", Password := "testpass", Deposit := 0,
    Role := "buyer" }

/-- A product costing 30 with 5 in stock. -/
def soda : Product :=
  { ID := "soda", AmountAvailable := 5, Cost := 30, ProductName := "Soda",
    SellerID := "seller-1" }

/-- A product whose cost is not a multiple of 5. -/
def gum : Product :=
  { ID := "gum", AmountAvailable := 5, Cost := 3, ProductName := "Gum",
    SellerID := "seller-1" }

/-- The shop before any deposit. -/
def shop : State := { products := [soda, gum], users := [seller, buyer] }

/-- The shop after the buyer deposited 50 and 50. -/
def shop100 : State :=
  (deposit (deposit shop "buyer-1" (some 50)).1 "buyer-1" (some 50)).1

/-- The shop after the buyer, holding 100, bought one soda. -/
def shopAfterSoda : State :=
  { products := [{ soda with AmountAvailable := 4 }, gum], users := [seller, buyer] }

/-- The receipt of that purchase. -/
def sodaReceipt : Receipt :=
  { TotalSpent := 30, ProductsBought := [{ soda with AmountAvailable := 4 }],
    Change := [50, 20] }

/-- The shop after the buyer, holding 100, asked for one gum and got the change-making
error: the stock and the deposit stay debited. -/
def shopAfterGum : State :=
  { products := [soda, { gum with AmountAvailable := 4 }],
    users := [seller, { buyer with Deposit := 97 }] }

/-- The shop after the buyer, holding 100, bought -9223372036854775808 sodas. -/
def shopAfterMinInt : State :=
  { products := [{ soda with AmountAvailable := -9223372036854775803 }, gum],
    users := [seller, buyer] }

/-- The product of `TestBuy`: cost 50 with 10 in stock. -/
def cola : Product :=
  { ID := "cola", AmountAvailable := 10, Cost := 50, ProductName := "Soda",
    SellerID := "seller-1" }

/-- The state of `TestBuy` once the buyer has deposited 100. -/
def colaShop100 : State :=
  (deposit { products := [cola], users := [seller, buyer] } "buyer-1" (some 100)).1

/-- The shop after the buyer deposited 20, 10 and 5. -/
def shop35 : State :=
  (deposit (deposit (deposit shop "buyer-1" (some 20)).1 "buyer-1" (some 10)).1
    "buyer-1" (some 5)).1

/-- The shop after the buyer, holding 100, bought -1 sodas. -/
def shopAfterMinusOne : State :=
  { products := [{ soda with AmountAvailable := 6 }, gum], users := [seller, buyer] }

/-- A request body for `updateProduct` that tries to take over the soda. -/
def sodaTakeover : Product :=
  { ID := "soda", AmountAvailable := 0, Cost := 0, ProductName := "Soda",
    SellerID := "seller-2" }

/-- A product whose cost is 2^62. -/
def gold : Product :=
  { ID := "gold", AmountAvailable := 5, Cost := 4611686018427387904, ProductName := "Gold",
    SellerID := "seller-1" }

/-- A product whose cost is 2^62 + 1. -/
def pearl : Product :=
  { ID := "pearl", AmountAvailable := 5, Cost := 4611686018427387905, ProductName := "Pearl",
    SellerID := "seller-1" }

/-- A product that costs nothing. -/
def sample : Product :=
  { ID := "sample", AmountAvailable := 5, Cost := 0, ProductName := "Sample",
    SellerID := "seller-1" }

/-- A product costing 5. -/
def mint : Product :=
  { ID := "mint", AmountAvailable := 5, Cost := 5, ProductName := "Mint",
    SellerID := "seller-1" }

/-- A shop with these four products, after the buyer deposited 100. -/
def vault100 : State :=
  (deposit { products := [gold, pearl, sample, mint], users := [seller, buyer] }
    "buyer-1" (some 100)).1

/-- A shop whose buyer holds 9223372036854775805, the largest multiple of 5 an `int` holds. -/
def richShop : State :=
  { products := [soda], users := [seller, { buyer with Deposit := 9223372036854775805 }] }

/-! ## Machine integer lemmas -/

theorem wrapInt_of_inRange {x : Int} (h : InRange x) : wrapInt x = x := by
  unfold InRange intMin intMax at h
  unfold wrapInt
  omega

theorem wrapInt_inRange (x : Int) : InRange (wrapInt x) := by
  unfold InRange intMin intMax wrapInt
  omega

/-! ## The change-making loops -/

/-- Whatever the amount, the inner loop finishes within `amount + 1` iterations and
only appends copies of `coin`. -/
theorem coinLoop_shape {coin : Int} (hc : 0 < coin) :
    ∀ (fuel : Nat) (amount : Int) (change : List Int), amount.toNat < fuel →
      ∃ (k : Nat) (rest : Int),
        coinLoop coin fuel amount change = some (rest, change ++ List.replicate k coin) ∧
        rest < coin ∧ rest.toNat ≤ amount.toNat := by
  intro fuel
  induction fuel with
  | zero => intro amount change h; omega
  | succ n ih =>
    intro amount change h
    by_cases hge : amount ≥ coin
    · have hlt : (isub amount coin).toNat < n := by
        unfold isub wrapInt; omega
      obtain ⟨k, rest, hk, hr, hle⟩ := ih (isub amount coin) (change ++ [coin]) hlt
      refine ⟨k + 1, rest, ?_, hr, ?_⟩
      · simp only [coinLoop, hge, if_true, hk, List.replicate_succ, List.append_assoc,
          List.singleton_append]
      · have : (isub amount coin).toNat ≤ amount.toNat := by
          unfold isub wrapInt; omega
        omega
    · refine ⟨0, amount, ?_, by omega, le_refl _⟩
      simp [coinLoop, hge]

/-- On a non-negative `int`, the inner loop leaves `amount % coin` and appends
`amount / coin` copies of `coin`. -/
theorem coinLoop_exact {coin : Int} (hc : 0 < coin) :
    ∀ (fuel : Nat) (amount : Int) (change : List Int), 0 ≤ amount → amount ≤ intMax →
      amount.toNat < fuel →
      coinLoop coin fuel amount change =
        some (amount % coin, change ++ List.replicate (amount / coin).toNat coin) := by
  intro fuel
  induction fuel with
  | zero => intro amount change _ _ h; omega
  | succ n ih =>
    intro amount change h0 hmax h
    have hmax1 : amount ≤ 9223372036854775807 := hmax
    by_cases hge : amount ≥ coin
    · have hsub : isub amount coin = amount - coin := by
        unfold isub
        apply wrapInt_of_inRange
        unfold InRange intMin intMax
        omega
      have hmod : (amount - coin) % coin = amount % coin := by
        have := @Int.add_mul_emod_self amount (-1) coin
        simp [sub_eq_add_neg] at this ⊢
      have hdiv : (amount - coin) / coin = amount / coin - 1 := by
        have := Int.add_mul_ediv_right amount (-1) (ne_of_gt hc)
        simpa [sub_eq_add_neg] using this
      have hq : 1 ≤ amount / coin := by
        have := Int.ediv_le_ediv hc hge
        rwa [Int.ediv_self (ne_of_gt hc)] at this
      have hrec := ih (amount - coin) (change ++ [coin]) (by omega)
        (by unfold intMax; omega) (by omega)
      simp only [coinLoop, hge, if_true, hsub, hrec, hmod, hdiv]
      have hk : (amount / coin).toNat = (amount / coin - 1).toNat + 1 := by omega
      rw [hk, List.replicate_succ]
      simp
    · have hlt : amount < coin := by omega
      simp [coinLoop, hge, Int.emod_eq_of_lt h0 hlt, Int.ediv_eq_zero_of_lt h0 hlt]

theorem rangeCoins_coins_exact (a : Int) (h0 : 0 ≤ a) (hmax : a ≤ intMax) :
    rangeCoins coins (a.toNat + 1) a [] =
      some (a % 100 % 50 % 20 % 10 % 5, greedyChange a) := by
  have hmax1 : a ≤ 9223372036854775807 := hmax
  have e1 := @coinLoop_exact 100 (by decide) (a.toNat + 1) a [] h0 hmax (by omega)
  have e2 := @coinLoop_exact 50 (by decide) (a.toNat + 1) (a % 100)
    ([] ++ List.replicate (a / 100).toNat 100) (by omega) (by unfold intMax; omega) (by omega)
  have e3 := @coinLoop_exact 20 (by decide) (a.toNat + 1) (a % 100 % 50)
    (([] ++ List.replicate (a / 100).toNat 100) ++ List.replicate (a % 100 / 50).toNat 50)
    (by omega) (by unfold intMax; omega) (by omega)
  have e4 := @coinLoop_exact 10 (by decide) (a.toNat + 1) (a % 100 % 50 % 20)
    ((([] ++ List.replicate (a / 100).toNat 100) ++ List.replicate (a % 100 / 50).toNat 50) ++
      List.replicate (a % 100 % 50 / 20).toNat 20)
    (by omega) (by unfold intMax; omega) (by omega)
  have e5 := @coinLoop_exact 5 (by decide) (a.toNat + 1) (a % 100 % 50 % 20 % 10)
    (((([] ++ List.replicate (a / 100).toNat 100) ++ List.replicate (a % 100 / 50).toNat 50) ++
      List.replicate (a % 100 % 50 / 20).toNat 20) ++
      List.replicate (a % 100 % 50 % 20 / 10).toNat 10)
    (by omega) (by unfold intMax; omega) (by omega)
  simp only [List.nil_append, List.append_assoc] at e1 e2 e3 e4 e5
  simp only [coins, rangeCoins, e1, e2, e3, e4, e5, greedyChange]

/-- On a non-negative `int`, `calculateChange` returns the greedy list when the
amount is a multiple of 5 and the error otherwise. -/
theorem calculateChange_nonneg (a : Int) (h0 : 0 ≤ a) (hmax : a ≤ intMax) :
    calculateChange a =
      if a % 5 = 0 then some (.ok (greedyChange a))
      else some (.error "unable to make change") := by
  have hrest : a % 100 % 50 % 20 % 10 % 5 = a % 5 := by omega
  simp only [calculateChange, rangeCoins_coins_exact a h0 hmax, hrest]
  by_cases h5 : a % 5 = 0 <;> simp [h5]

/-- On a negative amount no loop body runs and `calculateChange` returns the error. -/
theorem calculateChange_neg (a : Int) (hneg : a < 0) :
    calculateChange a = some (.error "unable to make change") := by
  have h1 : ¬ a ≥ 100 := by omega
  have h2 : ¬ a ≥ 50 := by omega
  have h3 : ¬ a ≥ 20 := by omega
  have h4 : ¬ a ≥ 10 := by omega
  have h5 : ¬ a ≥ 5 := by omega
  have h6 : a ≠ 0 := by omega
  simp [calculateChange, coins, rangeCoins, coinLoop, h1, h2, h3, h4, h5, h6]

theorem greedyChange_mem (a : Int) : ∀ c ∈ greedyChange a, c ∈ coins := by
  intro c hc
  simp only [greedyChange, List.mem_append, List.mem_replicate] at hc
  simp only [coins, List.mem_cons, List.mem_singleton]
  rcases hc with h | h | h | h | h <;> simp [h.2]

theorem greedyChange_sum (a : Int) (h0 : 0 ≤ a) (h5 : a % 5 = 0) :
    (greedyChange a).sum = a := by
  simp only [greedyChange, List.sum_append, List.sum_replicate, nsmul_eq_mul]
  omega

theorem greedyChange_length (a : Int) : (greedyChange a).length = coinCount a := by
  simp only [greedyChange, coinCount, List.length_append, List.length_replicate]
  omega

theorem coinCount_split (q r : Int) (hr0 : 0 ≤ r) (hr : r < 100) :
    coinCount (100 * q + r) = q.toNat + coinCount r := by
  unfold coinCount
  have h1 : (100 * q + r) / 100 = q := by omega
  have h2 : (100 * q + r) % 100 = r := by omega
  have h3 : r / 100 = 0 := by omega
  have h4 : r % 100 = r := by omega
  rw [h1, h2, h3, h4]
  simp
  omega

set_option maxRecDepth 100000 in
/-- Below 100 the step bound is a finite check: adding a coin to `r` costs at most
one more coin, counting the hundred that may be carried. -/
theorem coinCount_small (r : Fin 100) :
    ∀ c ∈ [100, 50, 20, 10, 5],
      coinCount (((r.val + c) % 100 : Nat) : Int) + (r.val + c) / 100 ≤
        coinCount (r.val : Int) + 1 := by
  revert r
  decide

/-- Adding one coin to an amount raises the greedy coin count by at most one. -/
theorem coinCount_add_coin (a c : Int) (h0 : 0 ≤ a) (hc : c ∈ coins) :
    coinCount (a + c) ≤ coinCount a + 1 := by
  have hcn : c.toNat ∈ [100, 50, 20, 10, 5] := by
    simp only [coins, List.mem_cons, List.mem_singleton, List.mem_nil_iff, or_false] at hc
    rcases hc with h | h | h | h | h <;> subst h <;> decide
  have hc0 : 0 ≤ c := by
    simp only [coins, List.mem_cons, List.mem_singleton, List.mem_nil_iff, or_false] at hc
    omega
  have hr : (a % 100).toNat < 100 := by omega
  have hsmall := coinCount_small ⟨(a % 100).toNat, hr⟩ c.toNat hcn
  simp only at hsmall
  have e1 : a = 100 * (a / 100) + (((a % 100).toNat : Nat) : Int) := by omega
  have e2 : a + c = 100 * (a / 100 + ((((a % 100).toNat + c.toNat) / 100 : Nat) : Int)) +
      ((((a % 100).toNat + c.toNat) % 100 : Nat) : Int) := by omega
  have s1 := coinCount_split (a / 100) (((a % 100).toNat : Nat) : Int) (by omega) (by omega)
  have s2 := coinCount_split (a / 100 + ((((a % 100).toNat + c.toNat) / 100 : Nat) : Int))
    ((((a % 100).toNat + c.toNat) % 100 : Nat) : Int) (by omega) (by omega)
  rw [← e1] at s1
  rw [← e2] at s2
  rw [s1, s2]
  omega

theorem coins_sum_nonneg : ∀ l : List Int, (∀ c ∈ l, c ∈ coins) → 0 ≤ l.sum := by
  intro l
  induction l with
  | nil => intro _; simp
  | cons x xs ih =>
    intro h
    have hx : x ∈ coins := h x (List.mem_cons_self _ _)
    have hxs := ih (fun c hc => h c (List.mem_cons_of_mem _ hc))
    simp only [coins, List.mem_cons, List.mem_singleton, List.mem_nil_iff, or_false] at hx
    simp only [List.sum_cons]
    rcases hx with h | h | h | h | h <;> omega

/-- No list of coins is shorter than the greedy list for its sum. -/
theorem coinCount_le_length : ∀ l : List Int, (∀ c ∈ l, c ∈ coins) →
    coinCount l.sum ≤ l.length := by
  intro l
  induction l with
  | nil => intro _; simp [coinCount]
  | cons x xs ih =>
    intro h
    have hx : x ∈ coins := h x (List.mem_cons_self _ _)
    have hmem : ∀ c ∈ xs, c ∈ coins := fun c hc => h c (List.mem_cons_of_mem _ hc)
    have hstep := coinCount_add_coin xs.sum x (coins_sum_nonneg xs hmem) hx
    have hrec := ih hmem
    simp only [List.sum_cons, List.length_cons]
    rw [add_comm x xs.sum]
    omega

/-- A finished inner loop has only appended copies of its coin. -/
theorem coinLoop_appends (coin : Int) :
    ∀ (fuel : Nat) (amount : Int) (change : List Int) (rest : Int) (change1 : List Int),
      coinLoop coin fuel amount change = some (rest, change1) →
      ∃ k : Nat, change1 = change ++ List.replicate k coin := by
  intro fuel
  induction fuel with
  | zero => intro amount change rest change1 h; simp [coinLoop] at h
  | succ n ih =>
    intro amount change rest change1 h
    by_cases hge : amount ≥ coin
    · simp only [coinLoop, hge, if_true] at h
      obtain ⟨k, hk⟩ := ih _ _ _ _ h
      refine ⟨k + 1, ?_⟩
      simp only [hk, List.replicate_succ, List.append_assoc, List.singleton_append]
    · simp only [coinLoop, hge, if_false, Option.some.injEq, Prod.mk.injEq] at h
      exact ⟨0, by simp [h.2]⟩

/-- Ranging over coins in non-increasing order keeps the emitted list non-increasing. -/
theorem rangeCoins_sorted :
    ∀ (cs : List Int) (fuel : Nat) (amount : Int) (change : List Int) (rest : Int)
      (change1 : List Int),
      cs.Pairwise (fun x y => x ≥ y) → change.Pairwise (fun x y => x ≥ y) →
      (∀ x ∈ change, ∀ c ∈ cs, x ≥ c) →
      rangeCoins cs fuel amount change = some (rest, change1) →
      change1.Pairwise (fun x y => x ≥ y) := by
  intro cs
  induction cs with
  | nil =>
    intro fuel amount change rest change1 _ hch _ h
    simp only [rangeCoins, Option.some.injEq, Prod.mk.injEq] at h
    rw [← h.2]; exact hch
  | cons coin cs ih =>
    intro fuel amount change rest change1 hcs hch hge h
    simp only [rangeCoins] at h
    cases hloop : coinLoop coin fuel amount change with
    | none => simp [hloop] at h
    | some res =>
      obtain ⟨amount1, changeA⟩ := res
      simp only [hloop] at h
      obtain ⟨k, hk⟩ := coinLoop_appends coin fuel amount change amount1 changeA hloop
      rw [List.pairwise_cons] at hcs
      refine ih fuel amount1 changeA rest change1 hcs.2 ?_ ?_ h
      · rw [hk, List.pairwise_append]
        refine ⟨hch, ?_, ?_⟩
        · simp [List.pairwise_replicate]
        · intro x hx y hy
          have hy1 : y = coin := (List.mem_replicate.mp hy).2
          rw [hy1]
          exact hge x hx coin (List.mem_cons_self _ _)
      · intro x hx c hc
        rw [hk, List.mem_append] at hx
        rcases hx with hx | hx
        · exact hge x hx c (List.mem_cons_of_mem _ hc)
        · have hx1 : x = coin := (List.mem_replicate.mp hx).2
          rw [hx1]
          exact hcs.1 c hc

/-- With positive coins, ranging over them finishes whenever each inner loop is
allowed `amount + 1` iterations. -/
theorem rangeCoins_terminates :
    ∀ (cs : List Int), (∀ c ∈ cs, 0 < c) →
      ∀ (fuel : Nat) (amount : Int) (change : List Int), amount.toNat < fuel →
      ∃ res, rangeCoins cs fuel amount change = some res := by
  intro cs
  induction cs with
  | nil => intro _ fuel amount change _; exact ⟨_, rfl⟩
  | cons coin cs ih =>
    intro hpos fuel amount change hfuel
    obtain ⟨k, rest, hk, _, hle⟩ :=
      coinLoop_shape (hpos coin (List.mem_cons_self _ _)) fuel amount change hfuel
    obtain ⟨res, hres⟩ := ih (fun c hc => hpos c (List.mem_cons_of_mem _ hc)) fuel rest
      (change ++ List.replicate k coin) (by omega)
    exact ⟨res, by simp only [rangeCoins, hk, hres]⟩

/-- The loops of `calculateChange` finish on every input: it always returns. -/
theorem calculateChange_terminates (amount : Int) :
    ∃ res, calculateChange amount = some res := by
  obtain ⟨res, hres⟩ := rangeCoins_terminates coins (by decide) (amount.toNat + 1) amount []
    (by omega)
  obtain ⟨amount1, change⟩ := res
  by_cases h0 : amount1 ≠ 0
  · exact ⟨.error "unable to make change", by simp [calculateChange, hres, h0]⟩
  · exact ⟨.ok change, by simp [calculateChange, hres, h0]⟩

/-- A successful `calculateChange` on an `int` means the amount was a non-negative
multiple of 5 and the result is the greedy list. -/
theorem calculateChange_ok_inv {amount : Int} {change : List Int} (hr : InRange amount)
    (h : calculateChange amount = some (.ok change)) :
    0 ≤ amount ∧ amount % 5 = 0 ∧ change = greedyChange amount := by
  by_cases hneg : amount < 0
  · rw [calculateChange_neg amount hneg] at h
    simp at h
  · have h0 : 0 ≤ amount := by omega
    rw [calculateChange_nonneg amount h0 hr.2] at h
    by_cases h5 : amount % 5 = 0
    · simp only [h5, if_true, Option.some.injEq, Except.ok.injEq] at h
      exact ⟨h0, h5, h.symm⟩
    · simp [h5] at h

/-! ## Lookup lemmas -/

theorem findUser_some : ∀ (us : List User) (userID : String) (i : Nat) (u : User),
    findUser us userID = some (i, u) → us[i]? = some u ∧ u.ID = userID := by
  intro us
  induction us with
  | nil => intro userID i u h; simp [findUser] at h
  | cons x xs ih =>
    intro userID i u h
    by_cases hx : x.ID = userID
    · simp only [findUser, hx, if_true, Option.some.injEq, Prod.mk.injEq] at h
      obtain ⟨hi, hu⟩ := h
      subst hi; subst hu
      exact ⟨by simp, hx⟩
    · simp only [findUser, hx, if_false, Option.map_eq_some', Prod.mk.injEq] at h
      obtain ⟨⟨i1, u1⟩, hfind, hi, hu⟩ := h
      simp only at hi hu
      subst hi; subst hu
      have := ih userID i1 u1 hfind
      exact ⟨by simpa using this.1, this.2⟩

theorem findProduct_some : ∀ (ps : List Product) (productID : String) (j : Nat) (p : Product),
    findProduct ps productID = some (j, p) → ps[j]? = some p ∧ p.ID = productID := by
  intro ps
  induction ps with
  | nil => intro productID j p h; simp [findProduct] at h
  | cons x xs ih =>
    intro productID j p h
    by_cases hx : x.ID = productID
    · simp only [findProduct, hx, if_true, Option.some.injEq, Prod.mk.injEq] at h
      obtain ⟨hj, hp⟩ := h
      subst hj; subst hp
      exact ⟨by simp, hx⟩
    · simp only [findProduct, hx, if_false, Option.map_eq_some', Prod.mk.injEq] at h
      obtain ⟨⟨j1, p1⟩, hfind, hj, hp⟩ := h
      simp only at hj hp
      subst hj; subst hp
      have := ih productID j1 p1 hfind
      exact ⟨by simpa using this.1, this.2⟩

/-- Writing through the pointer a user with the same ID leaves the lookup on that user. -/
theorem findUser_set : ∀ (us : List User) (userID : String) (i : Nat) (u u1 : User),
    findUser us userID = some (i, u) → u1.ID = userID →
    findUser (us.set i u1) userID = some (i, u1) := by
  intro us
  induction us with
  | nil => intro userID i u u1 h; simp [findUser] at h
  | cons x xs ih =>
    intro userID i u u1 h hid
    by_cases hx : x.ID = userID
    · simp only [findUser, hx, if_true, Option.some.injEq, Prod.mk.injEq] at h
      obtain ⟨hi, _⟩ := h
      subst hi
      simp [findUser, hid]
    · simp only [findUser, hx, if_false, Option.map_eq_some', Prod.mk.injEq] at h
      obtain ⟨⟨i1, u2⟩, hfind, hi, hu⟩ := h
      simp only at hi hu
      subst hi; subst hu
      have := ih userID i1 u2 u1 hfind hid
      simp [findUser, hx, this]

theorem findProduct_set : ∀ (ps : List Product) (productID : String) (j : Nat) (p p1 : Product),
    findProduct ps productID = some (j, p) → p1.ID = productID →
    findProduct (ps.set j p1) productID = some (j, p1) := by
  intro ps
  induction ps with
  | nil => intro productID j p p1 h; simp [findProduct] at h
  | cons x xs ih =>
    intro productID j p p1 h hid
    by_cases hx : x.ID = productID
    · simp only [findProduct, hx, if_true, Option.some.injEq, Prod.mk.injEq] at h
      obtain ⟨hj, _⟩ := h
      subst hj
      simp [findProduct, hid]
    · simp only [findProduct, hx, if_false, Option.map_eq_some', Prod.mk.injEq] at h
      obtain ⟨⟨j1, p2⟩, hfind, hj, hp⟩ := h
      simp only at hj hp
      subst hj; subst hp
      have := ih productID j1 p2 p1 hfind hid
      simp [findProduct, hx, this]

theorem findUser_none_iff (us : List User) (userID : String) :
    findUser us userID = none ↔ ∀ u ∈ us, u.ID ≠ userID := by
  induction us with
  | nil => simp [findUser]
  | cons x xs ih =>
    by_cases hx : x.ID = userID
    · simp [findUser, hx]
    · simp [findUser, hx, ih]

theorem findProduct_none_iff (ps : List Product) (productID : String) :
    findProduct ps productID = none ↔ ∀ p ∈ ps, p.ID ≠ productID := by
  induction ps with
  | nil => simp [findProduct]
  | cons x xs ih =>
    by_cases hx : x.ID = productID
    · simp [findProduct, hx]
    · simp [findProduct, hx, ih]

/-- The lookup stops at the first user with the ID: no earlier user has it. -/
theorem findUser_first : ∀ (us : List User) (userID : String) (i : Nat) (u : User),
    findUser us userID = some (i, u) →
    ∀ (k : Nat) (v : User), k < i → us[k]? = some v → v.ID ≠ userID := by
  intro us
  induction us with
  | nil => intro userID i u h; simp [findUser] at h
  | cons x xs ih =>
    intro userID i u h k v hk hv
    by_cases hx : x.ID = userID
    · simp only [findUser, hx, if_true, Option.some.injEq, Prod.mk.injEq] at h
      omega
    · simp only [findUser, hx, if_false, Option.map_eq_some', Prod.mk.injEq] at h
      obtain ⟨⟨i1, u1⟩, hfind, hi, hu⟩ := h
      simp only at hi hu
      subst hi
      cases k with
      | zero =>
        simp only [List.getElem?_cons_zero, Option.some.injEq] at hv
        rw [← hv]; exact hx
      | succ k1 =>
        simp only [List.getElem?_cons_succ] at hv
        exact ih userID i1 u1 hfind k1 v (by omega) hv

/-- The lookup stops at the first product with the ID: no earlier product has it. -/
theorem findProduct_first : ∀ (ps : List Product) (productID : String) (j : Nat) (p : Product),
    findProduct ps productID = some (j, p) →
    ∀ (k : Nat) (q : Product), k < j → ps[k]? = some q → q.ID ≠ productID := by
  intro ps
  induction ps with
  | nil => intro productID j p h; simp [findProduct] at h
  | cons x xs ih =>
    intro productID j p h k q hk hq
    by_cases hx : x.ID = productID
    · simp only [findProduct, hx, if_true, Option.some.injEq, Prod.mk.injEq] at h
      omega
    · simp only [findProduct, hx, if_false, Option.map_eq_some', Prod.mk.injEq] at h
      obtain ⟨⟨j1, p1⟩, hfind, hj, hp⟩ := h
      simp only at hj hp
      subst hj
      cases k with
      | zero =>
        simp only [List.getElem?_cons_zero, Option.some.injEq] at hq
        rw [← hq]; exact hx
      | succ k1 =>
        simp only [List.getElem?_cons_succ] at hq
        exact ih productID j1 p1 hfind k1 q (by omega) hq

/-! ## The purchase protocol, branch by branch -/

/-- Once buyer and product are resolved, `buy` is its validation and settlement part. -/
theorem buy_resolved {s : State} {userID productID : String} {i j : Nat} {user : User}
    {product : Product} (amount : Int) (hid : userID ≠ "")
    (hfu : findUser s.users userID = some (i, user)) (hrole : user.Role = "buyer")
    (hfp : findProduct s.products productID = some (j, product)) :
    buy s userID productID (some amount) =
      if amount > product.AmountAvailable then
        some (s, .httpError "Insufficient product quantity" 400)
      else if imul product.Cost amount > user.Deposit then
        some (s, .httpError "Insufficient funds" 402)
      else
        match calculateChange (isub user.Deposit (imul product.Cost amount)) with
        | none => none
        | some (.error msg) => some (debited s i j user product amount, .httpError msg 500)
        | some (.ok change) =>
          some (settled s i j user product amount,
            .ok { TotalSpent := imul product.Cost amount,
                  ProductsBought :=
                    [{ product with AmountAvailable := isub product.AmountAvailable amount }],
                  Change := change }) := by
  simp only [buy, hid, hfu, hrole, hfp, if_false, ne_eq, not_true_eq_false, debited, settled,
    List.set_set]

/-- Every successful `buy` went through all the checks and the settlement. -/
theorem buy_ok_inv {s s1 : State} {userID productID : String} {amt : Option Int}
    {r : Receipt} (h : buy s userID productID amt = some (s1, .ok r)) :
    ∃ (i j : Nat) (user : User) (product : Product) (amount : Int) (change : List Int),
      amt = some amount ∧ userID ≠ "" ∧ findUser s.users userID = some (i, user) ∧
      user.Role = "buyer" ∧ findProduct s.products productID = some (j, product) ∧
      amount ≤ product.AmountAvailable ∧ imul product.Cost amount ≤ user.Deposit ∧
      calculateChange (isub user.Deposit (imul product.Cost amount)) = some (.ok change) ∧
      s1 = settled s i j user product amount ∧
      r = { TotalSpent := imul product.Cost amount,
            ProductsBought :=
              [{ product with AmountAvailable := isub product.AmountAvailable amount }],
            Change := change } := by
  by_cases hid : userID = ""
  · simp [buy, hid] at h
  cases hfu : findUser s.users userID with
  | none => simp [buy, hid, hfu] at h
  | some iu =>
    obtain ⟨i, user⟩ := iu
    by_cases hrole : user.Role = "buyer"
    swap
    · simp [buy, hid, hfu, hrole] at h
    cases amt with
    | none => simp [buy, hid, hfu, hrole] at h
    | some amount =>
      cases hfp : findProduct s.products productID with
      | none => simp [buy, hid, hfu, hrole, hfp] at h
      | some jp =>
        obtain ⟨j, product⟩ := jp
        rw [buy_resolved amount hid hfu hrole hfp] at h
        by_cases hstock : amount > product.AmountAvailable
        · simp [hstock] at h
        by_cases hfunds : imul product.Cost amount > user.Deposit
        · simp [hstock, hfunds] at h
        simp only [hstock, hfunds, if_false] at h
        cases hch : calculateChange (isub user.Deposit (imul product.Cost amount)) with
        | none => simp [hch] at h
        | some res =>
          cases res with
          | error msg => simp [hch] at h
          | ok change =>
            simp only [hch, Option.some.injEq, Prod.mk.injEq, Reply.ok.injEq] at h
            exact ⟨i, j, user, product, amount, change, rfl, hid, rfl, hrole, rfl,
              by omega, by omega, hch, h.1.symm, h.2.symm⟩

/-- Every error reply of `buy` either left the state untouched or is the change-making
error, written after stock and deposit were debited. -/
theorem buy_error_inv {s s1 : State} {userID productID : String} {amt : Option Int}
    {msg : String} {status : Nat}
    (h : buy s userID productID amt = some (s1, .httpError msg status)) :
    (s1 = s ∧ status ≠ 500) ∨
    (status = 500 ∧
      ∃ (i j : Nat) (user : User) (product : Product) (amount : Int),
        amt = some amount ∧ findUser s.users userID = some (i, user) ∧
        findProduct s.products productID = some (j, product) ∧
        amount ≤ product.AmountAvailable ∧ imul product.Cost amount ≤ user.Deposit ∧
        calculateChange (isub user.Deposit (imul product.Cost amount)) = some (.error msg) ∧
        s1 = debited s i j user product amount) := by
  by_cases hid : userID = ""
  · simp only [buy, hid, if_true, Option.some.injEq, Prod.mk.injEq, Reply.httpError.injEq] at h
    exact Or.inl ⟨h.1.symm, by omega⟩
  cases hfu : findUser s.users userID with
  | none =>
    simp only [buy, hid, hfu, if_false, Option.some.injEq, Prod.mk.injEq,
      Reply.httpError.injEq] at h
    exact Or.inl ⟨h.1.symm, by omega⟩
  | some iu =>
    obtain ⟨i, user⟩ := iu
    by_cases hrole : user.Role = "buyer"
    swap
    · simp only [buy, hid, hfu, hrole, if_false, ne_eq, not_false_eq_true, if_true,
        Option.some.injEq, Prod.mk.injEq, Reply.httpError.injEq] at h
      exact Or.inl ⟨h.1.symm, by omega⟩
    cases amt with
    | none =>
      simp only [buy, hid, hfu, hrole, if_false, ne_eq, not_true_eq_false,
        Option.some.injEq, Prod.mk.injEq, Reply.httpError.injEq] at h
      exact Or.inl ⟨h.1.symm, by omega⟩
    | some amount =>
      cases hfp : findProduct s.products productID with
      | none =>
        simp only [buy, hid, hfu, hrole, hfp, if_false, ne_eq, not_true_eq_false,
          Option.some.injEq, Prod.mk.injEq, Reply.httpError.injEq] at h
        exact Or.inl ⟨h.1.symm, by omega⟩
      | some jp =>
        obtain ⟨j, product⟩ := jp
        rw [buy_resolved amount hid hfu hrole hfp] at h
        by_cases hstock : amount > product.AmountAvailable
        · simp only [hstock, if_true, Option.some.injEq, Prod.mk.injEq,
            Reply.httpError.injEq] at h
          exact Or.inl ⟨h.1.symm, by omega⟩
        by_cases hfunds : imul product.Cost amount > user.Deposit
        · simp only [hstock, hfunds, if_false, if_true, Option.some.injEq, Prod.mk.injEq,
            Reply.httpError.injEq] at h
          exact Or.inl ⟨h.1.symm, by omega⟩
        simp only [hstock, hfunds, if_false] at h
        cases hch : calculateChange (isub user.Deposit (imul product.Cost amount)) with
        | none => simp [hch] at h
        | some res =>
          cases res with
          | ok change => simp [hch] at h
          | error msg1 =>
            simp only [hch, Option.some.injEq, Prod.mk.injEq, Reply.httpError.injEq] at h
            obtain ⟨hs1, hmsg, hstatus⟩ := h
            subst hmsg
            exact Or.inr ⟨hstatus.symm, i, j, user, product, amount, rfl, rfl, rfl,
              by omega, by omega, hch, hs1.symm⟩

/-- With a non-negative quantity the stock check does protect the stock invariant. -/
theorem buy_stock_nonneg_of_nonneg_quantity (s s1 : State) (userID productID : String)
    (amount : Int) (reply : Reply Receipt) (hwf : s.WF) (hinv : StockNonneg s)
    (hq : 0 ≤ amount) (h : buy s userID productID (some amount) = some (s1, reply)) :
    StockNonneg s1 := by
  have key : ∀ (j : Nat) (product : Product),
      findProduct s.products productID = some (j, product) →
      amount ≤ product.AmountAvailable →
      ∀ p ∈ s.products.set j (Product.mk product.ID (isub product.AmountAvailable amount)
        product.Cost product.ProductName product.SellerID), 0 ≤ p.AmountAvailable := by
    intro j product hfp hstock p hp
    have hprod := findProduct_some _ _ _ _ hfp
    have hmem : product ∈ s.products := List.getElem?_mem hprod.1
    rcases List.mem_or_eq_of_mem_set hp with hp1 | hp1
    · exact hinv p hp1
    · rw [hp1]
      have hr := (hwf.2 product hmem).1
      unfold InRange intMin intMax at hr
      simp only
      unfold isub wrapInt
      omega
  cases reply with
  | httpError msg status =>
    rcases buy_error_inv h with ⟨hs, _⟩ | ⟨_, i, j, user, product, amount1, hamt, _, hfp, hstock,
      _, _, hs1⟩
    · rw [hs]; exact hinv
    · simp only [Option.some.injEq] at hamt
      subst hamt
      rw [hs1]
      exact key j product hfp hstock
  | ok r =>
    obtain ⟨i, j, user, product, amount1, change, hamt, _, _, _, hfp, hstock, _, _, hs1, _⟩ :=
      buy_ok_inv h
    simp only [Option.some.injEq] at hamt
    subst hamt
    rw [hs1]
    exact key j product hfp hstock

/-- The handler `buy` always writes a reply: the model never runs out of iterations. -/
theorem buy_terminates (s : State) (userID productID : String) (amt : Option Int) :
    ∃ res, buy s userID productID amt = some res := by
  by_cases hid : userID = ""
  · simp [buy, hid]
  cases hfu : findUser s.users userID with
  | none => simp [buy, hid, hfu]
  | some iu =>
    obtain ⟨i, user⟩ := iu
    by_cases hrole : user.Role = "buyer"
    swap
    · simp [buy, hid, hfu, hrole]
    cases amt with
    | none => simp [buy, hid, hfu, hrole]
    | some amount =>
      cases hfp : findProduct s.products productID with
      | none => simp [buy, hid, hfu, hrole, hfp]
      | some jp =>
        obtain ⟨j, product⟩ := jp
        rw [buy_resolved amount hid hfu hrole hfp]
        by_cases hstock : amount > product.AmountAvailable
        · simp [hstock]
        by_cases hfunds : imul product.Cost amount > user.Deposit
        · simp [hstock, hfunds]
        obtain ⟨res, hres⟩ :=
          calculateChange_terminates (isub user.Deposit (imul product.Cost amount))
        cases res with
        | error msg => simp [hstock, hfunds, hres]
        | ok change => simp [hstock, hfunds, hres]

theorem coins_sum_mod5 : ∀ l : List Int, (∀ c ∈ l, c ∈ coins) → l.sum % 5 = 0 := by
  intro l
  induction l with
  | nil => intro _; simp
  | cons x xs ih =>
    intro h
    have hx : x ∈ coins := h x (List.mem_cons_self _ _)
    have hxs := ih (fun c hc => h c (List.mem_cons_of_mem _ hc))
    simp only [coins, List.mem_cons, List.mem_singleton, List.mem_nil_iff, or_false] at hx
    simp only [List.sum_cons]
    rcases hx with h | h | h | h | h <;> omega

/-- The sums of accepted denominations are exactly the non-negative multiples of 5. -/
theorem denomination_sum_iff (a : Int) :
    (∃ l : List Int, (∀ c ∈ l, c ∈ coins) ∧ l.sum = a) ↔ 0 ≤ a ∧ a % 5 = 0 := by
  constructor
  · rintro ⟨l, hl, rfl⟩
    exact ⟨coins_sum_nonneg l hl, coins_sum_mod5 l hl⟩
  · rintro ⟨h0, h5⟩
    refine ⟨List.replicate (a / 5).toNat 5, ?_, ?_⟩
    · intro c hc
      rw [(List.mem_replicate.mp hc).2]
      decide
    · simp only [List.sum_replicate, nsmul_eq_mul]
      omega

/-- With a non-negative quantity and a non-negative cost whose product fits an `int`, a
successful purchase pays out at most the deposit and does not raise the stock. -/
theorem buy_conserves_of_nonneg_quantity (s s1 : State) (userID productID : String)
    (amount : Int) (r : Receipt) (hwf : s.WF) (hq : 0 ≤ amount)
    (h : buy s userID productID (some amount) = some (s1, .ok r)) :
    ∃ (i j : Nat) (user : User) (product bought : Product),
      findUser s.users userID = some (i, user) ∧
      findProduct s.products productID = some (j, product) ∧
      findProduct s1.products productID = some (j, bought) ∧
      bought.AmountAvailable ≤ product.AmountAvailable ∧
      (0 ≤ product.Cost → InRange (product.Cost * amount) → r.Change.sum ≤ user.Deposit) := by
  obtain ⟨i, j, user, product, amount1, change, hamt, hid, hfu, hrole, hfp, hstock, hfunds,
    hch, hs1, hr⟩ := buy_ok_inv h
  simp only [Option.some.injEq] at hamt
  subst hamt
  have huser := findUser_some _ _ _ _ hfu
  have hprod := findProduct_some _ _ _ _ hfp
  have hdep : InRange user.Deposit := hwf.1 user (List.getElem?_mem huser.1)
  have hst : InRange product.AmountAvailable := (hwf.2 product (List.getElem?_mem hprod.1)).1
  refine ⟨i, j, user, product,
    { product with AmountAvailable := isub product.AmountAvailable amount }, hfu, hfp, ?_, ?_, ?_⟩
  · rw [hs1]
    exact findProduct_set _ _ _ _ _ hfp hprod.2
  · unfold InRange intMin intMax at hst
    simp only
    unfold isub wrapInt
    omega
  · intro hcost hrange
    have himul : imul product.Cost amount = product.Cost * amount := by
      unfold imul
      exact wrapInt_of_inRange hrange
    have hnonneg : 0 ≤ product.Cost * amount := Int.mul_nonneg hcost hq
    have hrem : InRange (isub user.Deposit (imul product.Cost amount)) := wrapInt_inRange _
    obtain ⟨h0, h5, hgreedy⟩ := calculateChange_ok_inv hrem hch
    rw [hr]
    simp only
    rw [hgreedy, greedyChange_sum _ h0 h5, himul]
    rw [himul] at hfunds
    unfold InRange intMin intMax at hdep
    generalize product.Cost * amount = t at *
    unfold isub wrapInt
    omega

/-! ## The claims of the specification -/

/-- C1, refuted as stated: the buyer holds 100 and buys 4 units of a product costing 2^62.
The total cost computed by line 237 wraps to 0, the purchase succeeds with `TotalSpent` 0
and change 100, which is not the deposit minus `Cost × quantity` (that is 100 - 2^64). -/
theorem buy_overflowing_total_returns_full_deposit :
    vault100.WF ∧
    findUser vault100.users "buyer-1" = some (1, { buyer with Deposit := 100 }) ∧
    findProduct vault100.products "gold" = some (0, gold) ∧
    (buy vault100 "buyer-1" "gold" (some 4)).map Prod.snd =
      some (.ok { TotalSpent := 0, ProductsBought := [{ gold with AmountAvailable := 1 }],
                  Change := [100] }) ∧
    ¬ InRange (gold.Cost * 4) ∧
    ([100] : List Int).sum ≠ 100 - gold.Cost * 4 := by
  decide

/-- C1, amended: after a successful `buy` the buyer's `Deposit` is exactly 0 and the change
in the receipt sums to the buyer's pre-call `Deposit` minus the receipt's `TotalSpent`;
provided `product.Cost × quantity` lies in the 64-bit `int` range, `TotalSpent` is that
product and the change sums to the pre-call `Deposit` minus `product.Cost × quantity`. -/
theorem buy_success_settles_balance (s s1 : State) (userID productID : String)
    (amt : Option Int) (r : Receipt) (hwf : s.WF)
    (h : buy s userID productID amt = some (s1, .ok r)) :
    ∃ (i j : Nat) (user : User) (product : Product) (amount : Int),
      amt = some amount ∧
      findUser s.users userID = some (i, user) ∧
      findProduct s.products productID = some (j, product) ∧
      findUser s1.users userID = some (i, { user with Deposit := 0 }) ∧
      r.Change.sum = user.Deposit - r.TotalSpent ∧
      (InRange (product.Cost * amount) →
        r.TotalSpent = product.Cost * amount ∧
        r.Change.sum = user.Deposit - product.Cost * amount) := by
  obtain ⟨i, j, user, product, amount, change, hamt, hid, hfu, hrole, hfp, hstock, hfunds,
    hch, hs1, hr⟩ := buy_ok_inv h
  have huser := findUser_some _ _ _ _ hfu
  have hdep : InRange user.Deposit := hwf.1 user (List.getElem?_mem huser.1)
  have hcost : InRange (imul product.Cost amount) := wrapInt_inRange _
  have hrem : InRange (isub user.Deposit (imul product.Cost amount)) := wrapInt_inRange _
  obtain ⟨h0, h5, hgreedy⟩ := calculateChange_ok_inv hrem hch
  have hsub : isub user.Deposit (imul product.Cost amount) =
      user.Deposit - imul product.Cost amount := by
    unfold InRange intMin intMax at hdep hcost
    revert h0
    generalize imul product.Cost amount = t at *
    unfold isub wrapInt
    intro h0
    omega
  have hsum : r.Change.sum = user.Deposit - r.TotalSpent := by
    rw [hr]
    simp only
    rw [hgreedy, greedyChange_sum _ h0 h5, hsub]
  refine ⟨i, j, user, product, amount, hamt, hfu, hfp, ?_, hsum, ?_⟩
  · rw [hs1]
    exact findUser_set _ _ _ _ _ hfu huser.2
  · intro hprod
    have htotal : r.TotalSpent = product.Cost * amount := by
      rw [hr]
      simp only
      unfold imul
      rw [wrapInt_of_inRange hprod]
    exact ⟨htotal, by rw [hsum, htotal]⟩

/-- Witness for C1 as amended: the scenario of the specification. Balance 100 after
deposits of 50 and 50, cost 30, stock 5, quantity 1: total spent 30, change 50 and 20,
stock 4, balance 0. -/
theorem buy_success_settles_balance_witness :
    shop100.WF ∧
    buy shop100 "buyer-1" "soda" (some 1) = some (shopAfterSoda, .ok sodaReceipt) ∧
    ∃ (i j : Nat) (user : User) (product : Product) (amount : Int),
      some (1 : Int) = some amount ∧
      findUser shop100.users "buyer-1" = some (i, user) ∧
      findProduct shop100.products "soda" = some (j, product) ∧
      findUser shopAfterSoda.users "buyer-1" = some (i, { user with Deposit := 0 }) ∧
      sodaReceipt.Change.sum = user.Deposit - sodaReceipt.TotalSpent ∧
      (InRange (product.Cost * amount) →
        sodaReceipt.TotalSpent = product.Cost * amount ∧
        sodaReceipt.Change.sum = user.Deposit - product.Cost * amount) :=
  ⟨by decide, by decide,
    buy_success_settles_balance shop100 shopAfterSoda "buyer-1" "soda" (some 1) sodaReceipt
      (by decide) (by decide)⟩

/-- C2, evaluated where atomicity fails: the buyer holds 100 and asks for one gum costing 3.
Stock and deposit are debited (lines 243-244), then `calculateChange 97` fails and `buy`
returns status 500 without undoing them: stock stays 4 and the deposit stays 97. -/
theorem buy_change_error_keeps_debit :
    buy shop100 "buyer-1" "gum" (some 1) =
      some (shopAfterGum, .httpError "unable to make change" 500) ∧
    shopAfterGum ≠ shop100 ∧
    shopAfterGum.users ≠ shop100.users ∧ shopAfterGum.products ≠ shop100.products := by
  decide

/-- C3: on every non-negative multiple of 5 that fits an `int` (by `denomination_sum_iff`
these are the sums of accepted denominations) `calculateChange` succeeds, every element of
the returned list is one of 100, 50, 20, 10, 5, and the list sums to the amount. -/
theorem calculateChange_exact_change (amount : Int) (h0 : 0 ≤ amount) (hmax : amount ≤ intMax)
    (h5 : amount % 5 = 0) :
    ∃ change : List Int, calculateChange amount = some (.ok change) ∧
      (∀ c ∈ change, c = 100 ∨ c = 50 ∨ c = 20 ∨ c = 10 ∨ c = 5) ∧ change.sum = amount := by
  refine ⟨greedyChange amount, ?_, ?_, greedyChange_sum amount h0 h5⟩
  · rw [calculateChange_nonneg amount h0 hmax]
    simp [h5]
  · intro c hc
    have := greedyChange_mem amount c hc
    simpa [coins] using this

/-- Witness for C3: 70 is a non-negative multiple of 5. -/
theorem calculateChange_exact_change_witness :
    ∃ change : List Int, calculateChange 70 = some (.ok change) ∧
      (∀ c ∈ change, c = 100 ∨ c = 50 ∨ c = 20 ∨ c = 10 ∨ c = 5) ∧ change.sum = 70 :=
  calculateChange_exact_change 70 (by decide) (by decide) (by decide)

/-- C4: on every non-negative multiple of 5 that fits an `int`, the list returned by
`calculateChange` has the minimum number of coins: every list of values from
100, 50, 20, 10, 5 with the same sum is at least as long. -/
theorem calculateChange_min_coins (amount : Int) (h0 : 0 ≤ amount) (hmax : amount ≤ intMax)
    (h5 : amount % 5 = 0) :
    ∃ change : List Int, calculateChange amount = some (.ok change) ∧
      ∀ l : List Int, (∀ c ∈ l, c ∈ coins) → l.sum = amount → change.length ≤ l.length := by
  refine ⟨greedyChange amount, ?_, ?_⟩
  · rw [calculateChange_nonneg amount h0 hmax]
    simp [h5]
  · intro l hl hsum
    rw [greedyChange_length, ← hsum]
    exact coinCount_le_length l hl

/-- Witness for C4: no list of coins summing to 85 is shorter than the one returned. -/
theorem calculateChange_min_coins_witness :
    ∃ change : List Int, calculateChange 85 = some (.ok change) ∧
      ∀ l : List Int, (∀ c ∈ l, c ∈ coins) → l.sum = 85 → change.length ≤ l.length :=
  calculateChange_min_coins 85 (by decide) (by decide) (by decide)

/-- C5: whenever `calculateChange` succeeds, the returned list is in non-increasing order:
each element is at least the element that follows it (and at least every later element). -/
theorem calculateChange_nonincreasing (amount : Int) (change : List Int)
    (h : calculateChange amount = some (.ok change)) :
    change.Chain' (fun x y => x ≥ y) ∧ change.Pairwise (fun x y => x ≥ y) := by
  have hp : change.Pairwise (fun x y => x ≥ y) := by
    unfold calculateChange at h
    cases hres : rangeCoins coins (amount.toNat + 1) amount [] with
    | none => simp [hres] at h
    | some res =>
      obtain ⟨rest, change1⟩ := res
      simp only [hres] at h
      by_cases hrest : rest ≠ 0
      · simp [hrest] at h
      · simp only [hrest, if_false, Option.some.injEq, Except.ok.injEq] at h
        subst h
        exact rangeCoins_sorted coins (amount.toNat + 1) amount [] rest change1 (by decide)
          List.Pairwise.nil (by simp) hres
  exact ⟨hp.chain', hp⟩

/-- Witness for C5: the change for 185 is 100, 50, 20, 10, 5. -/
theorem calculateChange_nonincreasing_witness :
    calculateChange 185 = some (.ok [100, 50, 20, 10, 5]) ∧
    List.Chain' (fun x y : Int => x ≥ y) [100, 50, 20, 10, 5] ∧
    List.Pairwise (fun x y : Int => x ≥ y) [100, 50, 20, 10, 5] :=
  ⟨by decide, calculateChange_nonincreasing 185 [100, 50, 20, 10, 5] (by decide)⟩

/-- C6, refuted as stated: the buyer holds 9223372036854775805 and deposits 5. The deposit
succeeds and `user.Deposit += amount` (line 188) wraps: the stored and returned balance is
-9223372036854775806, not the previous balance plus 5. -/
theorem deposit_overflows_balance :
    richShop.WF ∧
    findUser richShop.users "buyer-1" =
      some (1, { buyer with Deposit := 9223372036854775805 }) ∧
    deposit richShop "buyer-1" (some 5) =
      ({ richShop with users := [seller, { buyer with Deposit := -9223372036854775806 }] },
        .ok { buyer with Deposit := -9223372036854775806 }) ∧
    ¬ ((9223372036854775805 : Int) + 5 ≤ intMax) ∧
    (-9223372036854775806 : Int) ≠ 9223372036854775805 + 5 := by
  decide

/-- C6, amended: when the caller resolves to a buyer (non-empty `X-User-ID`, first user with
that ID has role "buyer"), a deposit of 5, 10, 20, 50 or 100 succeeds and returns the
updated user; provided the previous `Deposit` plus the amount does not exceed the largest
`int`, the caller's `Deposit` afterwards, which is also the balance returned, equals the
previous `Deposit` plus exactly the amount. Any other integer fails with "Invalid deposit
amount" (400) and leaves the state unchanged. -/
theorem deposit_by_buyer (s : State) (userID : String) (i : Nat) (user : User) (amount : Int)
    (hid : userID ≠ "") (hfu : findUser s.users userID = some (i, user))
    (hrole : user.Role = "buyer") (hdep : InRange user.Deposit) :
    ((amount = 5 ∨ amount = 10 ∨ amount = 20 ∨ amount = 50 ∨ amount = 100) →
      (∃ balance : Int,
        deposit s userID (some amount) =
          ({ s with users := s.users.set i { user with Deposit := balance } },
            .ok { user with Deposit := balance }) ∧
        findUser (deposit s userID (some amount)).1.users userID =
          some (i, { user with Deposit := balance })) ∧
      (user.Deposit + amount ≤ intMax →
        deposit s userID (some amount) =
          ({ s with users := s.users.set i { user with Deposit := user.Deposit + amount } },
            .ok { user with Deposit := user.Deposit + amount }) ∧
        findUser (deposit s userID (some amount)).1.users userID =
          some (i, { user with Deposit := user.Deposit + amount }))) ∧
    (¬ (amount = 5 ∨ amount = 10 ∨ amount = 20 ∨ amount = 50 ∨ amount = 100) →
      deposit s userID (some amount) = (s, .httpError "Invalid deposit amount" 400)) := by
  have huser := findUser_some _ _ _ _ hfu
  constructor
  · intro hcoin
    have hguard : ¬ (amount ≠ 5 ∧ amount ≠ 10 ∧ amount ≠ 20 ∧ amount ≠ 50 ∧ amount ≠ 100) := by
      omega
    have heq : deposit s userID (some amount) =
        ({ s with users := s.users.set i { user with Deposit := iadd user.Deposit amount } },
          .ok { user with Deposit := iadd user.Deposit amount }) := by
      simp only [deposit, hid, hfu, hrole, if_false, ne_eq, not_true_eq_false, hguard]
    have hfind : findUser (deposit s userID (some amount)).1.users userID =
        some (i, { user with Deposit := iadd user.Deposit amount }) := by
      rw [heq]
      exact findUser_set _ _ _ _ _ hfu huser.2
    refine ⟨⟨iadd user.Deposit amount, heq, hfind⟩, ?_⟩
    intro hsum
    have hexact : iadd user.Deposit amount = user.Deposit + amount := by
      have hsum1 : user.Deposit + amount ≤ 9223372036854775807 := hsum
      unfold InRange intMin intMax at hdep
      unfold iadd
      apply wrapInt_of_inRange
      unfold InRange intMin intMax
      omega
    rw [← hexact]
    exact ⟨heq, hfind⟩
  · intro hcoin
    have hguard : amount ≠ 5 ∧ amount ≠ 10 ∧ amount ≠ 20 ∧ amount ≠ 50 ∧ amount ≠ 100 := by
      omega
    simp only [deposit, hid, hfu, hrole, if_false, ne_eq, not_true_eq_false]
    rw [if_pos hguard]

/-- Witness for C6 as amended: a buyer with balance 0 depositing 100 ends with balance 100,
and a deposit of 7 is refused. -/
theorem deposit_by_buyer_witness :
    ("buyer-1" ≠ "" ∧ findUser shop.users "buyer-1" = some (1, buyer) ∧
      buyer.Role = "buyer" ∧ InRange buyer.Deposit ∧ buyer.Deposit + 100 ≤ intMax) ∧
    (deposit shop "buyer-1" (some 100) =
        ({ shop with users := shop.users.set 1 { buyer with Deposit := buyer.Deposit + 100 } },
          .ok { buyer with Deposit := buyer.Deposit + 100 }) ∧
      findUser (deposit shop "buyer-1" (some 100)).1.users "buyer-1" =
        some (1, { buyer with Deposit := buyer.Deposit + 100 })) ∧
    (deposit shop "buyer-1" (some 100)).2 = .ok { buyer with Deposit := 100 } ∧
    deposit shop "buyer-1" (some 7) = (shop, .httpError "Invalid deposit amount" 400) :=
  ⟨by decide,
    ((deposit_by_buyer shop "buyer-1" 1 buyer 100 (by decide) (by decide) (by decide)
      (by decide)).1 (by decide)).2 (by decide),
    by decide,
    (deposit_by_buyer shop "buyer-1" 1 buyer 7 (by decide) (by decide) (by decide)
      (by decide)).2 (by decide)⟩

/-- C7, refuted as stated: the buyer holds 100 and asks for 2 units of a product costing
2^62, with 5 in stock. `Cost × quantity` is 2^63, more than the deposit, but line 237 wraps
it to -2^63, the funds check of line 238 passes, stock and deposit are debited and the
reply is the change-making error (500), not "Insufficient funds" (402). -/
theorem buy_overflowing_total_passes_funds_check :
    findUser vault100.users "buyer-1" = some (1, { buyer with Deposit := 100 }) ∧
    findProduct vault100.products "gold" = some (0, gold) ∧
    (2 : Int) ≤ gold.AmountAvailable ∧ gold.Cost * 2 > 100 ∧ ¬ InRange (gold.Cost * 2) ∧
    buy vault100 "buyer-1" "gold" (some 2) =
      some ({ products := [{ gold with AmountAvailable := 3 }, pearl, sample, mint],
              users := [seller, { buyer with Deposit := -9223372036854775708 }] },
        .httpError "unable to make change" 500) := by
  decide

/-- C7, amended: with an eligible buyer, an existing product and a quantity not above the
stock, if `product.Cost × quantity` lies in the 64-bit `int` range and exceeds the buyer's
`Deposit` then `buy` fails with "Insufficient funds" (402) and the users and products lists
are unchanged. -/
theorem buy_insufficient_funds (s : State) (userID productID : String) (i j : Nat)
    (user : User) (product : Product) (amount : Int) (hid : userID ≠ "")
    (hfu : findUser s.users userID = some (i, user)) (hrole : user.Role = "buyer")
    (hfp : findProduct s.products productID = some (j, product))
    (hstock : amount ≤ product.AmountAvailable)
    (hrange : InRange (product.Cost * amount))
    (hcost : product.Cost * amount > user.Deposit) :
    buy s userID productID (some amount) = some (s, .httpError "Insufficient funds" 402) := by
  rw [buy_resolved amount hid hfu hrole hfp]
  have hnot : ¬ amount > product.AmountAvailable := by omega
  have htotal : imul product.Cost amount = product.Cost * amount := by
    unfold imul
    exact wrapInt_of_inRange hrange
  have hgt : imul product.Cost amount > user.Deposit := by
    rw [htotal]; exact hcost
  simp only [hnot, if_false, hgt, if_true]

/-- Witness for C7 as amended: four sodas cost 120, the buyer holds 100. -/
theorem buy_insufficient_funds_witness :
    (4 : Int) ≤ soda.AmountAvailable ∧ InRange (soda.Cost * 4) ∧ soda.Cost * 4 > 100 ∧
    buy shop100 "buyer-1" "soda" (some 4) =
      some (shop100, .httpError "Insufficient funds" 402) :=
  ⟨by decide, by decide, by decide,
    buy_insufficient_funds shop100 "buyer-1" "soda" 1 0 { buyer with Deposit := 100 } soda 4
      (by decide) (by decide) (by decide) (by decide) (by decide) (by decide) (by decide)⟩

/-- C8: with an eligible buyer and an existing product, a quantity above the product's
`AmountAvailable` makes `buy` fail with "Insufficient product quantity" (400), whatever the
cost and the balance, and the users and products lists are unchanged. -/
theorem buy_insufficient_stock (s : State) (userID productID : String) (i j : Nat)
    (user : User) (product : Product) (amount : Int) (hid : userID ≠ "")
    (hfu : findUser s.users userID = some (i, user)) (hrole : user.Role = "buyer")
    (hfp : findProduct s.products productID = some (j, product))
    (hstock : amount > product.AmountAvailable) :
    buy s userID productID (some amount) =
      some (s, .httpError "Insufficient product quantity" 400) := by
  rw [buy_resolved amount hid hfu hrole hfp]
  simp only [hstock, if_true]

/-- Witness for C8: six sodas are asked for, five are in stock. -/
theorem buy_insufficient_stock_witness :
    (6 : Int) > soda.AmountAvailable ∧
    buy shop100 "buyer-1" "soda" (some 6) =
      some (shop100, .httpError "Insufficient product quantity" 400) :=
  ⟨by decide,
    buy_insufficient_stock shop100 "buyer-1" "soda" 1 0 { buyer with Deposit := 100 } soda 6
      (by decide) (by decide) (by decide) (by decide) (by decide)⟩

/-- C9, evaluated where the account invariant fails: every deposit of `shop100` is a
non-negative multiple of 5, yet after the failed purchase of one gum costing 3 the buyer's
`Deposit` is 97. -/
theorem buy_change_error_breaks_deposit_invariant :
    DepositsRepresentable shop100 ∧
    (buy shop100 "buyer-1" "gum" (some 1)).map Prod.fst = some shopAfterGum ∧
    findUser shopAfterGum.users "buyer-1" = some (1, { buyer with Deposit := 97 }) ∧
    ¬ DepositsRepresentable shopAfterGum := by
  decide

/-- C10, evaluated where the stock invariant fails: all stock of `shop100` is non-negative,
the quantity -9223372036854775808 passes the stock check (it is not above 5), the total cost
`30 * amount` wraps to 0, and `product.AmountAvailable -= amount` wraps to
-9223372036854775803; the purchase succeeds. -/
theorem buy_min_int_quantity_breaks_stock_invariant :
    StockNonneg shop100 ∧ shop100.WF ∧ InRange (-9223372036854775808) ∧
    buy shop100 "buyer-1" "soda" (some (-9223372036854775808)) =
      some (shopAfterMinInt,
        .ok { TotalSpent := 0,
              ProductsBought := [{ soda with AmountAvailable := -9223372036854775803 }],
              Change := [100] }) ∧
    ¬ StockNonneg shopAfterMinInt := by
  decide

/-- C11, refuted as stated, on three inputs; in each the buyer holds 100, a sum of accepted
denominations, and `buy` fails with the change-making error (500).
One gum costing 3: the total cost is not a multiple of 5.
Four pearls costing 2^62 + 1: `Cost × quantity` = 2^64 + 4 is a multiple of 5 but outside the
`int` range, line 237 wraps it to 4.
-1844674407370955161 mints costing 5: `Cost × quantity` = -9223372036854775805 is a multiple
of 5 inside the `int` range, but the deposit minus it is above the largest `int` and line 244
wraps to a negative balance. -/
theorem buy_change_error_from_valid_balance :
    (shop100.WF ∧ DepositsRepresentable shop100 ∧
      findUser shop100.users "buyer-1" = some (1, { buyer with Deposit := 100 }) ∧
      (buy shop100 "buyer-1" "gum" (some 1)).map Prod.snd =
        some (.httpError "unable to make change" 500) ∧
      ¬ (gum.Cost * 1 % 5 = 0)) ∧
    (vault100.WF ∧ DepositsRepresentable vault100 ∧
      findUser vault100.users "buyer-1" = some (1, { buyer with Deposit := 100 }) ∧
      (buy vault100 "buyer-1" "pearl" (some 4)).map Prod.snd =
        some (.httpError "unable to make change" 500) ∧
      pearl.Cost * 4 % 5 = 0 ∧ ¬ InRange (pearl.Cost * 4)) ∧
    ((buy vault100 "buyer-1" "mint" (some (-1844674407370955161))).map Prod.snd =
        some (.httpError "unable to make change" 500) ∧
      mint.Cost * (-1844674407370955161) % 5 = 0 ∧
      InRange (mint.Cost * (-1844674407370955161)) ∧
      ¬ (100 - mint.Cost * (-1844674407370955161) ≤ intMax)) := by
  decide

/-- C11, amended: when the buyer's `Deposit` is a sum of accepted denominations (a
non-negative multiple of 5), `product.Cost × quantity` is a multiple of 5 lying in the 64-bit
`int` range, and the `Deposit` minus `product.Cost × quantity` does not exceed the largest
`int`, `buy` replies and the reply is never the change-making error (status 500). -/
theorem buy_no_change_error (s : State) (userID productID : String) (amount : Int)
    (hdep : ∀ (i : Nat) (user : User), findUser s.users userID = some (i, user) →
      0 ≤ user.Deposit ∧ user.Deposit % 5 = 0)
    (hcost : ∀ (i j : Nat) (user : User) (product : Product),
      findUser s.users userID = some (i, user) →
      findProduct s.products productID = some (j, product) →
      product.Cost * amount % 5 = 0 ∧ InRange (product.Cost * amount) ∧
      user.Deposit - product.Cost * amount ≤ intMax) :
    ∃ (s1 : State) (reply : Reply Receipt),
      buy s userID productID (some amount) = some (s1, reply) ∧
      ∀ msg : String, reply ≠ .httpError msg 500 := by
  obtain ⟨⟨s1, reply⟩, hres⟩ := buy_terminates s userID productID (some amount)
  refine ⟨s1, reply, hres, ?_⟩
  intro msg hreply
  rw [hreply] at hres
  rcases buy_error_inv hres with ⟨_, hne⟩ | ⟨_, i, j, user, product, amount1, hamt, hfu, hfp,
    _, hfunds, hch, _⟩
  · exact hne rfl
  · simp only [Option.some.injEq] at hamt
    subst hamt
    obtain ⟨h0, h5⟩ := hdep i user hfu
    obtain ⟨hc5, hrange, hmax⟩ := hcost i j user product hfu hfp
    have htotal : imul product.Cost amount = product.Cost * amount := by
      unfold imul
      exact wrapInt_of_inRange hrange
    rw [htotal] at hfunds hch
    have hmax1 : user.Deposit - product.Cost * amount ≤ 9223372036854775807 := hmax
    have hsub : isub user.Deposit (product.Cost * amount) =
        user.Deposit - product.Cost * amount := by
      unfold isub
      apply wrapInt_of_inRange
      unfold InRange intMin intMax
      omega
    rw [hsub, calculateChange_nonneg _ (by omega) hmax] at hch
    have hrem : (user.Deposit - product.Cost * amount) % 5 = 0 := by omega
    simp [hrem] at hch

/-- Witness for C11 as amended: one soda costing 30 against a balance of 100. -/
theorem buy_no_change_error_witness :
    (soda.Cost * 1 % 5 = 0 ∧ InRange (soda.Cost * 1) ∧ 100 - soda.Cost * 1 ≤ intMax) ∧
    ∃ (s1 : State) (reply : Reply Receipt),
      buy shop100 "buyer-1" "soda" (some 1) = some (s1, reply) ∧
      ∀ msg : String, reply ≠ .httpError msg 500 := by
  have hfu : findUser shop100.users "buyer-1" = some (1, { buyer with Deposit := 100 }) := by
    decide
  have hfp : findProduct shop100.products "soda" = some (0, soda) := by decide
  refine ⟨by decide, buy_no_change_error shop100 "buyer-1" "soda" 1 ?_ ?_⟩
  · intro i user h
    rw [hfu] at h
    simp only [Option.some.injEq, Prod.mk.injEq] at h
    rw [← h.2]
    decide
  · intro i j user product h1 h2
    rw [hfu] at h1
    rw [hfp] at h2
    simp only [Option.some.injEq, Prod.mk.injEq] at h1 h2
    rw [← h1.2, ← h2.2]
    decide

/-- C12, refuted as stated, on two inputs; in each the buyer holds 100 and `buy` succeeds.
Four units of a product costing 2^62: `TotalSpent` is 0, not `Cost × quantity` = 2^64.
-9223372036854775808 units of a product costing 0 with 5 in stock: `TotalSpent` is the exact
product 0, but the stored `AmountAvailable` is -9223372036854775803, not 5 minus the
quantity. -/
theorem buy_receipt_wraps :
    (findProduct vault100.products "gold" = some (0, gold) ∧
      (buy vault100 "buyer-1" "gold" (some 4)).map Prod.snd =
        some (.ok { TotalSpent := 0, ProductsBought := [{ gold with AmountAvailable := 1 }],
                    Change := [100] }) ∧
      (0 : Int) ≠ gold.Cost * 4 ∧ ¬ InRange (gold.Cost * 4)) ∧
    (findProduct vault100.products "sample" = some (2, sample) ∧
      (buy vault100 "buyer-1" "sample" (some (-9223372036854775808))).map Prod.snd =
        some (.ok { TotalSpent := 0,
                    ProductsBought := [{ sample with AmountAvailable := -9223372036854775803 }],
                    Change := [100] }) ∧
      (0 : Int) = sample.Cost * (-9223372036854775808) ∧
      (-9223372036854775803 : Int) ≠ sample.AmountAvailable - (-9223372036854775808) ∧
      ¬ (sample.AmountAvailable - (-9223372036854775808) ≤ intMax)) := by
  decide

/-- C12, amended: on every successful `buy`, `ProductsBought` is the single product snapshot
that equals the pre-call product in every field except `AmountAvailable`, and that snapshot
is the product stored in the state afterwards; the receipt's `TotalSpent` equals
`product.Cost × quantity` (pre-call cost) provided that product lies in the 64-bit `int`
range, and the snapshot's `AmountAvailable` equals the pre-call `AmountAvailable` minus the
quantity provided that difference does not exceed the largest `int`. -/
theorem buy_receipt_snapshot (s s1 : State) (userID productID : String) (amt : Option Int)
    (r : Receipt) (h : buy s userID productID amt = some (s1, .ok r)) :
    ∃ (j : Nat) (product bought : Product) (amount : Int),
      amt = some amount ∧
      findProduct s.products productID = some (j, product) ∧
      (InRange (product.Cost * amount) → r.TotalSpent = product.Cost * amount) ∧
      r.ProductsBought = [bought] ∧
      bought.ID = product.ID ∧ bought.Cost = product.Cost ∧
      bought.ProductName = product.ProductName ∧ bought.SellerID = product.SellerID ∧
      (product.AmountAvailable - amount ≤ intMax →
        bought.AmountAvailable = product.AmountAvailable - amount) ∧
      findProduct s1.products productID = some (j, bought) ∧
      s1.products[j]? = some bought := by
  obtain ⟨i, j, user, product, amount, change, hamt, hid, hfu, hrole, hfp, hstock, hfunds,
    hch, hs1, hr⟩ := buy_ok_inv h
  have hprod := findProduct_some _ _ _ _ hfp
  have hfp1 : findProduct s1.products productID =
      some (j, { product with AmountAvailable := isub product.AmountAvailable amount }) := by
    rw [hs1]
    exact findProduct_set _ _ _ _ _ hfp hprod.2
  refine ⟨j, product, { product with AmountAvailable := isub product.AmountAvailable amount },
    amount, hamt, hfp, ?_, by rw [hr], rfl, rfl, rfl, rfl, ?_, hfp1,
    (findProduct_some _ _ _ _ hfp1).1⟩
  · intro hprodRange
    rw [hr]
    simp only
    unfold imul
    rw [wrapInt_of_inRange hprodRange]
  · intro hmax
    have hmax1 : product.AmountAvailable - amount ≤ 9223372036854775807 := hmax
    simp only
    unfold isub
    apply wrapInt_of_inRange
    unfold InRange intMin intMax
    omega

/-- Witness for C12 as amended: the purchase of `TestBuy`. Cost 50, stock 10, balance 100,
quantity 1 gives `TotalSpent` 50 and a snapshot with 9 in stock. -/
theorem buy_receipt_snapshot_witness :
    buy colaShop100 "buyer-1" "cola" (some 1) =
      some ({ products := [{ cola with AmountAvailable := 9 }], users := [seller, buyer] },
        .ok { TotalSpent := 50, ProductsBought := [{ cola with AmountAvailable := 9 }],
              Change := [50] }) ∧
    InRange (cola.Cost * 1) ∧ cola.AmountAvailable - 1 ≤ intMax ∧
    ∃ (j : Nat) (product bought : Product) (amount : Int),
      some (1 : Int) = some amount ∧
      findProduct colaShop100.products "cola" = some (j, product) ∧
      (InRange (product.Cost * amount) → (50 : Int) = product.Cost * amount) ∧
      [{ cola with AmountAvailable := 9 }] = [bought] ∧
      bought.ID = product.ID ∧ bought.Cost = product.Cost ∧
      bought.ProductName = product.ProductName ∧ bought.SellerID = product.SellerID ∧
      (product.AmountAvailable - amount ≤ intMax →
        bought.AmountAvailable = product.AmountAvailable - amount) ∧
      findProduct [{ cola with AmountAvailable := 9 }] "cola" = some (j, bought) ∧
      [{ cola with AmountAvailable := 9 }][j]? = some bought :=
  ⟨by decide, by decide, by decide,
    buy_receipt_snapshot colaShop100
      { products := [{ cola with AmountAvailable := 9 }], users := [seller, buyer] }
      "buyer-1" "cola" (some 1)
      { TotalSpent := 50, ProductsBought := [{ cola with AmountAvailable := 9 }],
        Change := [50] }
      (by decide)⟩

/-- C13: `buy` resolves the buyer before the product. When the request carries no caller
id (empty `X-User-ID`), or no user has the caller id, or the first user with that id does
not have role "buyer", `buy` fails with status 401 whatever the product id and the amount
form value; otherwise, when no product has the given id, `buy` fails with "Product not
found" (404) for every integer quantity. In both cases the state is unchanged. -/
theorem buy_resolves_buyer_before_product (s : State) (userID productID : String) :
    ((userID = "" ∨ (∀ u ∈ s.users, u.ID ≠ userID) ∨
        (∃ (i : Nat) (user : User),
          findUser s.users userID = some (i, user) ∧ user.Role ≠ "buyer")) →
      ∀ amt : Option Int,
        buy s userID productID amt =
          some (s, .httpError (if userID = "" then "Missing user ID" else "Unauthorized") 401)) ∧
    (∀ (i : Nat) (user : User), userID ≠ "" → findUser s.users userID = some (i, user) →
      user.Role = "buyer" → (∀ p ∈ s.products, p.ID ≠ productID) →
      ∀ amount : Int,
        buy s userID productID (some amount) = some (s, .httpError "Product not found" 404)) := by
  constructor
  · intro hcase amt
    by_cases hid : userID = ""
    · simp [buy, hid]
    · rcases hcase with h | h | ⟨i, user, hfu, hrole⟩
      · exact absurd h hid
      · have hnone := (findUser_none_iff s.users userID).mpr h
        simp [buy, hid, hnone]
      · simp [buy, hid, hfu, hrole]
  · intro i user hid hfu hrole hnone amount
    have hfp := (findProduct_none_iff s.products productID).mpr hnone
    simp [buy, hid, hfu, hrole, hfp]

/-- Witness for C13: the seller is not a buyer (401 before the product is looked at), and
the buyer asking for an unknown product gets 404. -/
theorem buy_resolves_buyer_before_product_witness :
    buy shop100 "seller-1" "no-such-product" (some 1) =
      some (shop100, .httpError "Unauthorized" 401) ∧
    buy shop100 "buyer-1" "no-such-product" (some 1) =
      some (shop100, .httpError "Product not found" 404) :=
  ⟨(buy_resolves_buyer_before_product shop100 "seller-1" "no-such-product").1
      (Or.inr (Or.inr ⟨0, seller, by decide, by decide⟩)) (some 1),
    (buy_resolves_buyer_before_product shop100 "buyer-1" "no-such-product").2
      1 { buyer with Deposit := 100 } (by decide) (by decide) (by decide) (by decide) 1⟩

/-- C14: ownership gate. When the first product with the id has a `SellerID` different from
the caller, `updateProduct` and `deleteProduct` fail with "Unauthorized" (401); when no
product has the id they fail with "Product not found" (404); the products list (indeed the
whole state) is unchanged in both cases. -/
theorem product_ownership_gate (s : State) (id sellerID : String) (updatedProduct : Product) :
    (∀ (j : Nat) (product : Product), findProduct s.products id = some (j, product) →
      product.SellerID ≠ sellerID →
      updateProduct s id sellerID updatedProduct = (s, .httpError "Unauthorized" 401) ∧
      deleteProduct s id sellerID = (s, .httpError "Unauthorized" 401)) ∧
    ((∀ p ∈ s.products, p.ID ≠ id) →
      updateProduct s id sellerID updatedProduct = (s, .httpError "Product not found" 404) ∧
      deleteProduct s id sellerID = (s, .httpError "Product not found" 404)) := by
  constructor
  · intro j product hfp hseller
    simp [updateProduct, deleteProduct, hfp, hseller]
  · intro hnone
    have hfp := (findProduct_none_iff s.products id).mpr hnone
    simp [updateProduct, deleteProduct, hfp]

/-- Witness for C14: "seller-1" owns the soda, "seller-2" calls `updateProduct` and
`deleteProduct` on it: Unauthorized, the soda is unchanged. -/
theorem product_ownership_gate_witness :
    findProduct shop.products "soda" = some (0, soda) ∧ soda.SellerID ≠ "seller-2" ∧
    updateProduct shop "soda" "seller-2" sodaTakeover = (shop, .httpError "Unauthorized" 401) ∧
    deleteProduct shop "soda" "seller-2" = (shop, .httpError "Unauthorized" 401) :=
  ⟨by decide, by decide,
    (product_ownership_gate shop "soda" "seller-2" sodaTakeover).1 0 soda (by decide)
      (by decide)⟩

/-- C15: when the caller id resolves to a user (non-empty `X-User-ID`, some user has it),
`reset` sets the `Deposit` of the first such user to exactly 0 whatever it was, returns that
user, and is idempotent: a second `reset` for the same caller gives the same state and the
same returned account. -/
theorem reset_zeroes_and_idempotent (s : State) (userID : String) (i : Nat) (user : User)
    (hid : userID ≠ "") (hfu : findUser s.users userID = some (i, user)) :
    reset s userID =
      ({ s with users := s.users.set i { user with Deposit := 0 } },
        .ok { user with Deposit := 0 }) ∧
    findUser (reset s userID).1.users userID = some (i, { user with Deposit := 0 }) ∧
    reset (reset s userID).1 userID = reset s userID := by
  have huser := findUser_some _ _ _ _ hfu
  have h1 : reset s userID =
      ({ s with users := s.users.set i { user with Deposit := 0 } },
        .ok { user with Deposit := 0 }) := by
    simp only [reset, hid, if_false, hfu]
  have h2 : findUser (s.users.set i { user with Deposit := 0 }) userID =
      some (i, { user with Deposit := 0 }) :=
    findUser_set _ _ _ _ _ hfu huser.2
  refine ⟨h1, by rw [h1]; exact h2, ?_⟩
  rw [h1]
  simp only [reset, hid, if_false, h2, List.set_set]

/-- Witness for C15: a balance of 35 becomes 0 and stays 0 on a repeated call. -/
theorem reset_zeroes_and_idempotent_witness :
    findUser shop35.users "buyer-1" = some (1, { buyer with Deposit := 35 }) ∧
    reset shop35 "buyer-1" = (shop, .ok buyer) ∧
    reset (reset shop35 "buyer-1").1 "buyer-1" = (shop, .ok buyer) ∧
    (reset shop35 "buyer-1" =
      ({ shop35 with users := shop35.users.set 1 { buyer with Deposit := 0 } },
        .ok { buyer with Deposit := 0 }) ∧
    findUser (reset shop35 "buyer-1").1.users "buyer-1" =
      some (1, { buyer with Deposit := 0 }) ∧
    reset (reset shop35 "buyer-1").1 "buyer-1" = reset shop35 "buyer-1") :=
  ⟨by decide, by decide, by decide,
    reset_zeroes_and_idempotent shop35 "buyer-1" 1 { buyer with Deposit := 35 } (by decide)
      (by decide)⟩

/-- C16: when no user has the caller id, or the first user with that id does not have role
"buyer", `deposit` fails with status 401 and the state (so every `Deposit`) is unchanged,
whatever the amount form value: an accepted denomination, any other integer, or text that
is not an integer. The authorization check precedes the amount check. -/
theorem deposit_unauthorized (s : State) (userID : String) (amt : Option Int)
    (h : (∀ u ∈ s.users, u.ID ≠ userID) ∨
      (∃ (i : Nat) (user : User),
        findUser s.users userID = some (i, user) ∧ user.Role ≠ "buyer")) :
    deposit s userID amt =
      (s, .httpError (if userID = "" then "Missing user ID" else "Unauthorized") 401) := by
  by_cases hid : userID = ""
  · simp [deposit, hid]
  · rcases h with h | ⟨i, user, hfu, hrole⟩
    · have hnone := (findUser_none_iff s.users userID).mpr h
      simp [deposit, hid, hnone]
    · simp [deposit, hid, hfu, hrole]

/-- Witness for C16: the seller deposits 100, an accepted denomination, and is refused; an
unknown caller depositing 7 gets 401, not 400. -/
theorem deposit_unauthorized_witness :
    deposit shop "seller-1" (some 100) = (shop, .httpError "Unauthorized" 401) ∧
    deposit shop "nobody" (some 7) = (shop, .httpError "Unauthorized" 401) :=
  ⟨deposit_unauthorized shop "seller-1" (some 100)
      (Or.inr ⟨0, seller, by decide, by decide⟩),
    deposit_unauthorized shop "nobody" (some 7) (Or.inl (by decide))⟩

/-- C17: on every `int`, `calculateChange` returns the error "unable to make change" exactly
when the amount is not a non-negative multiple of 5: it fails on every negative amount and on
every positive amount not divisible by 5, and `calculateChange 0` succeeds with the empty
list. -/
theorem calculateChange_error_iff (amount : Int) (hr : InRange amount) :
    (calculateChange amount = some (.error "unable to make change") ↔
      ¬ (0 ≤ amount ∧ amount % 5 = 0)) ∧
    (amount < 0 → calculateChange amount = some (.error "unable to make change")) ∧
    (0 < amount → amount % 5 ≠ 0 →
      calculateChange amount = some (.error "unable to make change")) ∧
    (∀ msg : String, calculateChange amount = some (.error msg) →
      msg = "unable to make change") ∧
    calculateChange 0 = some (.ok []) := by
  have hpos : ∀ a : Int, 0 ≤ a → a ≤ intMax → a % 5 ≠ 0 →
      calculateChange a = some (.error "unable to make change") := by
    intro a h0 hmax h5
    rw [calculateChange_nonneg a h0 hmax]
    simp [h5]
  refine ⟨?_, calculateChange_neg amount, ?_, ?_, by decide⟩
  · constructor
    · intro herr hgood
      rw [calculateChange_nonneg amount hgood.1 hr.2] at herr
      simp [hgood.2] at herr
    · intro hbad
      by_cases hneg : amount < 0
      · exact calculateChange_neg amount hneg
      · exact hpos amount (by omega) hr.2 (by omega)
  · intro h0 h5
    exact hpos amount (by omega) hr.2 h5
  · intro msg hmsg
    by_cases hneg : amount < 0
    · rw [calculateChange_neg amount hneg] at hmsg
      simp only [Option.some.injEq, Except.error.injEq] at hmsg
      exact hmsg.symm
    · rw [calculateChange_nonneg amount (by omega) hr.2] at hmsg
      by_cases h5 : amount % 5 = 0
      · simp [h5] at hmsg
      · simp only [h5, if_false, Option.some.injEq, Except.error.injEq] at hmsg
        exact hmsg.symm

/-- Witness for C17: 7 is positive and not divisible by 5. -/
theorem calculateChange_error_iff_witness :
    InRange 7 ∧ calculateChange 7 = some (.error "unable to make change") ∧
    calculateChange (-5) = some (.error "unable to make change") :=
  ⟨by decide,
    (calculateChange_error_iff 7 (by decide)).2.2.1 (by decide) (by decide),
    (calculateChange_error_iff (-5) (by decide)).2.1 (by decide)⟩

/-- C18, evaluated where conservation fails: the buyer holds 100 and buys -1 sodas costing
30 (a non-negative cost). The quantity passes the stock check, the total cost is -30, and
the purchase succeeds: the change 100, 20, 10 sums to 130, more than the deposit of 100,
and the stock rises from 5 to 6. -/
theorem buy_negative_quantity_pays_out :
    shop100.WF ∧ 0 ≤ soda.Cost ∧
    findUser shop100.users "buyer-1" = some (1, { buyer with Deposit := 100 }) ∧
    findProduct shop100.products "soda" = some (0, soda) ∧
    buy shop100 "buyer-1" "soda" (some (-1)) =
      some (shopAfterMinusOne,
        .ok { TotalSpent := -30, ProductsBought := [{ soda with AmountAvailable := 6 }],
              Change := [100, 20, 10] }) ∧
    ¬ (([100, 20, 10] : List Int).sum ≤ 100) ∧
    findProduct shopAfterMinusOne.products "soda" =
      some (0, { soda with AmountAvailable := 6 }) ∧
    ¬ ((6 : Int) ≤ soda.AmountAvailable) := by
  decide

/-- C19: frame of `buy`. A successful `buy` writes only the `Deposit` of the first user
whose `ID` is the caller id and the `AmountAvailable` of the first product whose `ID` is
the product id: both lists keep their length and order, every other position holds the
same user or product as before (later entries with the same id included), and at the two
written positions all other fields are unchanged. -/
theorem buy_frame (s s1 : State) (userID productID : String) (amt : Option Int) (r : Receipt)
    (h : buy s userID productID amt = some (s1, .ok r)) :
    ∃ (i j : Nat) (user user1 : User) (product product1 : Product),
      s.users[i]? = some user ∧ user.ID = userID ∧
      (∀ (k : Nat) (v : User), k < i → s.users[k]? = some v → v.ID ≠ userID) ∧
      s.products[j]? = some product ∧ product.ID = productID ∧
      (∀ (k : Nat) (q : Product), k < j → s.products[k]? = some q → q.ID ≠ productID) ∧
      s1.users.length = s.users.length ∧ s1.products.length = s.products.length ∧
      (∀ k : Nat, k ≠ i → s1.users[k]? = s.users[k]?) ∧
      (∀ k : Nat, k ≠ j → s1.products[k]? = s.products[k]?) ∧
      s1.users[i]? = some user1 ∧
      user1.ID = user.ID ∧ user1.Username = user.Username ∧
      user1.Password = user.Password ∧ user1.Role = user.Role ∧
      s1.products[j]? = some product1 ∧
      product1.ID = product.ID ∧ product1.Cost = product.Cost ∧
      product1.ProductName = product.ProductName ∧ product1.SellerID = product.SellerID := by
  obtain ⟨i, j, user, product, amount, change, hamt, hid, hfu, hrole, hfp, hstock, hfunds,
    hch, hs1, hr⟩ := buy_ok_inv h
  have huser := findUser_some _ _ _ _ hfu
  have hprod := findProduct_some _ _ _ _ hfp
  refine ⟨i, j, user, { user with Deposit := 0 }, product,
    { product with AmountAvailable := isub product.AmountAvailable amount },
    huser.1, huser.2, findUser_first _ _ _ _ hfu, hprod.1, hprod.2,
    findProduct_first _ _ _ _ hfp, ?_, ?_, ?_, ?_, ?_, rfl, rfl, rfl, rfl, ?_, rfl, rfl, rfl, rfl⟩
  · rw [hs1]; simp [settled]
  · rw [hs1]; simp [settled]
  · intro k hk
    rw [hs1]
    simp only [settled]
    exact List.getElem?_set_ne (Ne.symm hk)
  · intro k hk
    rw [hs1]
    simp only [settled]
    exact List.getElem?_set_ne (Ne.symm hk)
  · rw [hs1]
    simp only [settled, List.getElem?_set_self', huser.1]
    rfl
  · rw [hs1]
    simp only [settled, List.getElem?_set_self', hprod.1]
    rfl

/-- Witness for C19: the purchase of one soda with a balance of 100 touches the buyer's
`Deposit` and the soda's `AmountAvailable` only; the seller and the gum are as before. -/
theorem buy_frame_witness :
    buy shop100 "buyer-1" "soda" (some 1) = some (shopAfterSoda, .ok sodaReceipt) ∧
    shopAfterSoda.users[0]? = shop100.users[0]? ∧
    shopAfterSoda.products[1]? = shop100.products[1]? ∧
    ∃ (i j : Nat) (user user1 : User) (product product1 : Product),
      shop100.users[i]? = some user ∧ user.ID = "buyer-1" ∧
      (∀ (k : Nat) (v : User), k < i → shop100.users[k]? = some v → v.ID ≠ "buyer-1") ∧
      shop100.products[j]? = some product ∧ product.ID = "soda" ∧
      (∀ (k : Nat) (q : Product), k < j → shop100.products[k]? = some q → q.ID ≠ "soda") ∧
      shopAfterSoda.users.length = shop100.users.length ∧
      shopAfterSoda.products.length = shop100.products.length ∧
      (∀ k : Nat, k ≠ i → shopAfterSoda.users[k]? = shop100.users[k]?) ∧
      (∀ k : Nat, k ≠ j → shopAfterSoda.products[k]? = shop100.products[k]?) ∧
      shopAfterSoda.users[i]? = some user1 ∧
      user1.ID = user.ID ∧ user1.Username = user.Username ∧
      user1.Password = user.Password ∧ user1.Role = user.Role ∧
      shopAfterSoda.products[j]? = some product1 ∧
      product1.ID = product.ID ∧ product1.Cost = product.Cost ∧
      product1.ProductName = product.ProductName ∧ product1.SellerID = product.SellerID :=
  ⟨by decide, by decide, by decide,
    buy_frame shop100 shopAfterSoda "buyer-1" "soda" (some 1) sodaReceipt (by decide)⟩

end VendingMachine
